import Mathlib

/- Verification of the index-rebuild pipeline of gogdb/updater/indexdb.py:
the product-row projection, the changelog-row projection with its
category-specific fields, the per-timestamp summary aggregation, and the
transactional rebuild orchestrator index_main. -/

/-- Modelled from the spec: `normalize_search` lives in
gogdb/core/normalization.py, which is not in src/. The spec fixes only that
it is a pure, deterministic, total map from a display title to a canonical
search key; the exact folding rules are a policy choice. -/
def normalize_search (title : String) : String :=
  title.toLower

/-- Modelled from the spec: `compress_systems` lives in
gogdb/core/normalization.py, which is not in src/. The spec fixes only that
it is a pure, deterministic, order-independent canonical encoding of the
supported-systems set. -/
def compress_systems (systems : List String) : String :=
  String.intercalate "," (List.insertionSort (· ≤ ·) systems.dedup)

/-- Product record loaded from the primary store; fields are the ones
indexdb.py reads: id, title, image_logo, type, comp_systems,
rank_bestselling (None when the product has no bestseller rank). -/
structure Product where
  id : Int
  title : String
  image_logo : String
  type : String
  comp_systems : List String
  rank_bestselling : Option Int
deriving DecidableEq

/-- A bonus sub-record of a download change record (bonus_type tag). -/
structure BonusRecord where
  bonus_type : String
deriving DecidableEq

/-- Payload of a download-category change record: a download-type tag and
optional new/old bonus sub-records. -/
structure DownloadRecord where
  dl_type : String
  dl_new_bonus : Option BonusRecord
  dl_old_bonus : Option BonusRecord
deriving DecidableEq

/-- Payload of a property-category change record. -/
structure PropertyRecord where
  property_name : String
deriving DecidableEq

/-- Modelled from the spec: the ChangeRecord dataclass lives in
gogdb/core/model.py, which is not in src/. Fields follow the spec's data
model: product id, timestamp, action, category, and category-specific
payloads. The payloads are optional because the spec's MalformedChangeRecord
class explicitly includes structurally-valid records of a known category
that miss their expected sub-fields. Timestamps are modelled as integer
epoch seconds, so datetime.timestamp() is the identity on this model. -/
structure ChangeRecord where
  id : Int
  timestamp : Int
  action : String
  category : String
  download_record : Option DownloadRecord
  property_record : Option PropertyRecord
deriving DecidableEq

/-- A row of the products table (schema of init_db). -/
structure ProductRow where
  product_id : Int
  title : String
  image_logo : String
  product_type : String
  comp_systems : String
  sale_rank : Int
  search_title : String
deriving DecidableEq

/-- A row of the changelog table (schema of init_db). -/
structure ChangelogRow where
  product_id : Int
  product_title : String
  timestamp : Int
  action : String
  category : String
  dl_type : Option String
  bonus_type : Option String
  property_name : Option String
  serialized_record : String
deriving DecidableEq

/-- A row of the changelog_summary table (schema of init_db). -/
structure SummaryRow where
  product_id : Int
  product_title : String
  timestamp : Int
  categories : String
deriving DecidableEq

/-- index_product (indexdb.py lines 53-69): project one product to its
products-table row; sale_rank is num_ids - rank_bestselling + 1 when the
product has a bestseller rank and 0 otherwise. -/
def index_product (prod : Product) (num_ids : Nat) : ProductRow :=
  let sale_rank : Int :=
    match prod.rank_bestselling with
    | some r => (num_ids : Int) - r + 1
    | none => 0
  { product_id := prod.id
    title := prod.title
    image_logo := prod.image_logo
    product_type := prod.type
    comp_systems := compress_systems prod.comp_systems
    sale_rank := sale_rank
    search_title := normalize_search prod.title }

/-- The category branch of index_changelog (indexdb.py lines 82-90),
computing (dl_type, bonus_type, property_name) of the IndexChange. A
download-category record without its download payload (and a
property-category record without its property payload) makes the Python
attribute access on None raise, which aborts the rebuild; this is modelled
by Except.error. For a download record the new-bonus type is written first
and the old-bonus type afterwards, so the old one wins when both bonus
sub-records are present. -/
def changeFields (changerec : ChangeRecord) :
    Except String (Option String × Option String × Option String) :=
  if changerec.category = "download" then
    match changerec.download_record with
    | none => Except.error "AttributeError: NoneType has no attribute dl_type"
    | some dr =>
      let bonusNew : Option String :=
        match dr.dl_new_bonus with
        | some nb => some nb.bonus_type
        | none => none
      let bonusFinal : Option String :=
        match dr.dl_old_bonus with
        | some ob => some ob.bonus_type
        | none => bonusNew
      Except.ok (some dr.dl_type, bonusFinal, none)
  else if changerec.category = "property" then
    match changerec.property_record with
    | none =>
      Except.error "AttributeError: NoneType has no attribute property_name"
    | some pr => Except.ok (none, none, some pr.property_name)
  else
    Except.ok (none, none, none)

/-- JSON values as produced by serializing a ChangeRecord (null, strings,
numbers and objects suffice for this record shape). -/
inductive Json where
  | null : Json
  | str : String → Json
  | num : Int → Json
  | obj : List (String × Json) → Json

/-- The escaping json.dumps applies to one character of a string when
called with ensure_ascii set to False: only the quote, the backslash and
control characters below 0x20 are escaped; every other character, in
particular every non-ASCII character, is emitted unchanged. -/
def escapeChar (c : Char) : String :=
  if c = '"' then "\\\""
  else if c = '\\' then "\\\\"
  else if c = '\n' then "\\n"
  else if c = '\t' then "\\t"
  else if c = '\r' then "\\r"
  else if c = Char.ofNat 8 then "\\b"
  else if c = Char.ofNat 12 then "\\f"
  else if c.toNat < 32 then
    let hexDigit : Nat → String := fun n =>
      if n < 10 then toString n
      else String.singleton (Char.ofNat (97 + (n - 10)))
    "\\u00" ++ hexDigit (c.toNat / 16) ++ hexDigit (c.toNat % 16)
  else String.singleton c

/-- Escape a whole string for a JSON string literal. -/
def escapeString (s : String) : String :=
  s.data.foldl (fun acc c => acc ++ escapeChar c) ""

/-- A JSON string literal with its surrounding quotes. -/
def quoteJson (s : String) : String :=
  "\"" ++ escapeString s ++ "\""

mutual

/-- Recursively sort every object's key-value pairs by key, as json.dumps
does when called with sort_keys set to True. -/
def sortJson : Json → Json
  | Json.null => Json.null
  | Json.str s => Json.str s
  | Json.num n => Json.num n
  | Json.obj kvs =>
    Json.obj (List.insertionSort (fun a b => a.1 ≤ b.1) (sortPairs kvs))

/-- Sort the values of an object's pair list recursively. -/
def sortPairs : List (String × Json) → List (String × Json)
  | [] => []
  | (k, v) :: rest => (k, sortJson v) :: sortPairs rest

end

mutual

/-- Emit a JSON value as text, with the default json.dumps separators
(a comma-space between members, a colon-space between key and value). -/
def jsonEmit : Json → String
  | Json.null => "null"
  | Json.str s => quoteJson s
  | Json.num n => toString n
  | Json.obj kvs => "\x7b" ++ emitPairs kvs ++ "\x7d"

/-- Emit the members of a JSON object in the order given. -/
def emitPairs : List (String × Json) → String
  | [] => ""
  | [(k, v)] => quoteJson k ++ ": " ++ jsonEmit v
  | (k, v) :: rest => quoteJson k ++ ": " ++ jsonEmit v ++ ", " ++ emitPairs rest

end

/-- json.dumps with sort_keys set to True and ensure_ascii set to False,
as called on idx_change.record at indexdb.py lines 103-105. -/
def jsonDumps (j : Json) : String :=
  jsonEmit (sortJson j)

/-- Serialize an optional sub-record; None serializes to JSON null. -/
def optJson (f : α → Json) : Option α → Json
  | none => Json.null
  | some x => f x

/-- JSON image of a bonus sub-record. -/
def bonusJson (b : BonusRecord) : Json :=
  Json.obj [("bonus_type", Json.str b.bonus_type)]

/-- JSON image of a download payload. -/
def downloadJson (d : DownloadRecord) : Json :=
  Json.obj
    [ ("dl_type", Json.str d.dl_type)
    , ("dl_new_bonus", optJson bonusJson d.dl_new_bonus)
    , ("dl_old_bonus", optJson bonusJson d.dl_old_bonus) ]

/-- JSON image of a property payload. -/
def propertyJson (p : PropertyRecord) : Json :=
  Json.obj [("property_name", Json.str p.property_name)]

/-- Modelled from the spec: storage.json_encoder (gogdb/core/storage.py is
not in src/) turns the ChangeRecord dataclass into a JSON object whose
values match the record structure, including the nested category payloads.
The field list mirrors the spec's ChangeRecord data model. -/
def changeRecordJson (rec : ChangeRecord) : Json :=
  Json.obj
    [ ("id", Json.num rec.id)
    , ("timestamp", Json.num rec.timestamp)
    , ("action", Json.str rec.action)
    , ("category", Json.str rec.category)
    , ("download_record", optJson downloadJson rec.download_record)
    , ("property_record", optJson propertyJson rec.property_record) ]

/-- One loop iteration of index_changelog (indexdb.py lines 73-107):
build the IndexChange for one change record and project it to its
changelog-table row, with the record serialized as canonical JSON in the
last column. Errors of the category branch propagate. -/
def indexChangeRow (prod : Product) (changerec : ChangeRecord) :
    Except String ChangelogRow :=
  (changeFields changerec).map (fun f =>
    { product_id := prod.id
      product_title := prod.title
      timestamp := changerec.timestamp
      action := changerec.action
      category := changerec.category
      dl_type := f.1
      bonus_type := f.2.1
      property_name := f.2.2
      serialized_record := jsonDumps (changeRecordJson changerec) })

/-- Add a category to a category set, modelling Python set.add on the
defaultdict(set) value at indexdb.py line 109. The set is a duplicate-free
list; insertion order is irrelevant downstream because the set is sorted
before it is joined. -/
def setAdd (cs : List String) (c : String) : List String :=
  if c ∈ cs then cs else cs ++ [c]

/-- Update the summaries accumulator for one change record: add the
record's category to the set keyed by its timestamp, creating the entry
if absent (defaultdict semantics); entries keep first-insertion order,
like Python dict iteration. -/
def addCat (acc : List (Int × List String)) (t : Int) (c : String) :
    List (Int × List String) :=
  match acc with
  | [] => [(t, [c])]
  | (t', cs) :: rest =>
    if t' = t then (t', setAdd cs c) :: rest
    else (t', cs) :: addCat rest t c

/-- The summaries mapping built by the loop of index_changelog
(indexdb.py lines 72 and 109): timestamp to set of categories. -/
def summariesOf (recs : List ChangeRecord) : List (Int × List String) :=
  recs.foldl (fun acc r => addCat acc r.timestamp r.category) []

/-- The summary rows emitted for one product by index_changelog
(indexdb.py lines 111-121): one row per distinct timestamp, with the
categories joined as a sorted comma-separated string. -/
def summaryRows (prod : Product) (recs : List ChangeRecord) : List SummaryRow :=
  (summariesOf recs).map (fun p =>
    { product_id := prod.id
      product_title := prod.title
      timestamp := p.1
      categories := String.intercalate "," (List.insertionSort (· ≤ ·) p.2) })

/-- The categories of the change records of a list that carry a given
timestamp, in record order (specification side of the summary claim). -/
def catsAt (recs : List ChangeRecord) (t : Int) : List String :=
  (recs.filter (fun r => decide (r.timestamp = t))).map (fun r => r.category)

/-- Look a timestamp up in the summaries accumulator. -/
def lookupCats : List (Int × List String) → Int → Option (List String)
  | [], _ => none
  | (t', cs) :: rest, t => if t' = t then some cs else lookupCats rest t

/-- One SQL data statement issued by the rebuild against the index store
(indexdb.py lines 135-155): transaction begin and end, the three DELETEs,
and the three kinds of INSERT. -/
inductive Op where
  | beginTx : Op
  | commitTx : Op
  | deleteProducts : Op
  | deleteChangelog : Op
  | deleteSummary : Op
  | insertProduct : ProductRow → Op
  | insertChangelog : ChangelogRow → Op
  | insertSummary : SummaryRow → Op
deriving DecidableEq

/-- The changelog rows index_changelog actually inserts for one product,
in order, together with an aborted flag: when a record's category branch
raises, the rows of the earlier records are already inserted inside the
open transaction and the loop stops there. -/
def changelogRowsAcc (prod : Product) :
    List ChangeRecord → List ChangelogRow × Bool
  | [] => ([], false)
  | changerec :: rest =>
    match indexChangeRow prod changerec with
    | Except.error _ => ([], true)
    | Except.ok row =>
      let t := changelogRowsAcc prod rest
      (row :: t.1, t.2)

/-- index_changelog (indexdb.py lines 71-121) as the statements it issues:
the changelog-row inserts of the records processed before any failure,
then, only when no record failed, the summary-row inserts. -/
def index_changelog_ops (prod : Product) (recs : List ChangeRecord) :
    List Op × Bool :=
  let t := changelogRowsAcc prod recs
  ( t.1.map Op.insertChangelog ++
      (if t.2 then [] else (summaryRows prod recs).map Op.insertSummary)
  , t.2 )

/-- The statements one loop iteration of index_main issues for one id
(indexdb.py lines 141-153): nothing when the product is absent, only the
product insert when the changelog is absent, and otherwise the product
insert followed by the statements of index_changelog. -/
def idOps (num_ids : Nat) (pl : Nat → Option Product)
    (cl : Nat → Option (List ChangeRecord)) (i : Nat) : List Op × Bool :=
  match pl i with
  | none => ([], false)
  | some prod =>
    match cl i with
    | none => ([Op.insertProduct (index_product prod num_ids)], false)
    | some recs =>
      let t := index_changelog_ops prod recs
      (Op.insertProduct (index_product prod num_ids) :: t.1, t.2)

/-- The statements the whole id loop of index_main issues: the per-id
statements in id order, stopping at the first id whose processing raises. -/
def loopOps (num_ids : Nat) (pl : Nat → Option Product)
    (cl : Nat → Option (List ChangeRecord)) : List Nat → List Op × Bool
  | [] => ([], false)
  | i :: rest =>
    let t := idOps num_ids pl cl i
    if t.2 then (t.1, true)
    else
      let r := loopOps num_ids pl cl rest
      (t.1 ++ r.1, r.2)

/-- The full statement trace of index_main (indexdb.py lines 135-155):
BEGIN TRANSACTION, the three DELETEs, the loop statements, and END
TRANSACTION only when the loop ran to completion — a raised error
propagates out before the commit is ever issued. -/
def index_main_ops (ids : List Nat) (pl : Nat → Option Product)
    (cl : Nat → Option (List ChangeRecord)) : List Op :=
  Op.beginTx :: Op.deleteProducts :: Op.deleteChangelog :: Op.deleteSummary ::
    ((loopOps ids.length pl cl ids).1 ++
      (if (loopOps ids.length pl cl ids).2 then [] else [Op.commitTx]))

/-- The three tables of the index store. -/
structure Store where
  products : List ProductRow
  changelog : List ChangelogRow
  changelog_summary : List SummaryRow
deriving DecidableEq

/-- Effect of one data statement on a table snapshot. -/
def Store.applyWriteOp (st : Store) : Op → Store
  | Op.deleteProducts => { st with products := [] }
  | Op.deleteChangelog => { st with changelog := [] }
  | Op.deleteSummary => { st with changelog_summary := [] }
  | Op.insertProduct r => { st with products := st.products ++ [r] }
  | Op.insertChangelog r => { st with changelog := st.changelog ++ [r] }
  | Op.insertSummary r => { st with changelog_summary := st.changelog_summary ++ [r] }
  | _ => st

/-- A connection to the index store: the durable contents, and the working
snapshot of an open transaction when one is active. On a crash or error
the open transaction is rolled back, so the observable contents are the
persisted component. -/
structure Conn where
  persisted : Store
  tx : Option Store
deriving DecidableEq

/-- ACID semantics of one statement: BEGIN opens a transaction on the
durable contents; data statements apply to the open snapshot (or directly
to the durable contents in autocommit mode, which the rebuild never uses
because it begins first); END/COMMIT makes the snapshot durable. -/
def applyOp (c : Conn) : Op → Conn
  | Op.beginTx =>
    match c.tx with
    | none => { c with tx := some c.persisted }
    | some w => { c with tx := some w }
  | Op.commitTx =>
    match c.tx with
    | none => c
    | some w => { persisted := w, tx := none }
  | op =>
    match c.tx with
    | none => { c with persisted := c.persisted.applyWriteOp op }
    | some w => { c with tx := some (w.applyWriteOp op) }

/-- Run a statement list on a connection. -/
def runOps (c : Conn) (l : List Op) : Conn :=
  l.foldl applyOp c

/-- index_main (indexdb.py lines 123-165) at the level of the persisted
index store: run the full statement trace on a fresh connection and keep
the durable contents (rollback discards any unfinished transaction). -/
def index_main (s : Store) (ids : List Nat) (pl : Nat → Option Product)
    (cl : Nat → Option (List ChangeRecord)) : Store :=
  (runOps { persisted := s, tx := none } (index_main_ops ids pl cl)).persisted
/-- Claim C2: for every product and total id count N, a product with bestseller
rank r projects to a ProductRow whose sale_rank is N - r + 1 (so rank 1 maps to
the maximum value N), and a product with no bestseller rank projects to
sale_rank 0. -/
theorem sale_rank_projection (prod : Product) (n : Nat) :
    (∀ r : Int, prod.rank_bestselling = some r →
      (index_product prod n).sale_rank = (n : Int) - r + 1)
    ∧ (prod.rank_bestselling = some 1 → (index_product prod n).sale_rank = (n : Int))
    ∧ (prod.rank_bestselling = none → (index_product prod n).sale_rank = 0) := by
  refine ⟨fun r h => ?_, fun h => ?_, fun h => ?_⟩
  · simp [index_product, h]
  · simp [index_product, h]
  · simp [index_product, h]

theorem sale_rank_projection_witness :
    (index_product ⟨7, "A", "l", "game", [], some 1⟩ 3).sale_rank = (3 : Int) :=
  (sale_rank_projection ⟨7, "A", "l", "game", [], some 1⟩ 3).2.1 rfl

/-- Claim C5 counterexample: a structurally-valid change record of the known
category download that misses its download payload does not get null
category-specific fields; the projection raises instead (the Python attribute
access on None), aborting the rebuild. -/
theorem missing_payload_counterexample :
    changeFields ⟨1, 0, "changed", "download", none, none⟩ =
      Except.error "AttributeError: NoneType has no attribute dl_type" := rfl

/-- Claim C5 as amended: a change record whose category is outside the
recognized closed set gets all three category-specific fields null and never
raises; but a record of a known category that misses its expected payload
raises (aborting the rebuild) instead of leaving the fields null. -/
theorem change_fields_null_or_raise (rec : ChangeRecord) :
    (rec.category ≠ "download" → rec.category ≠ "property" →
      changeFields rec = Except.ok (none, none, none))
    ∧ (rec.category = "download" → rec.download_record = none →
      changeFields rec = Except.error "AttributeError: NoneType has no attribute dl_type")
    ∧ (rec.category = "property" → rec.property_record = none →
      changeFields rec =
        Except.error "AttributeError: NoneType has no attribute property_name") := by
  refine ⟨fun h1 h2 => ?_, fun h1 h2 => ?_, fun h1 h2 => ?_⟩
  · simp [changeFields, h1, h2]
  · simp [changeFields, h1, h2]
  · simp [changeFields, h1, h2]

theorem change_fields_null_or_raise_witness :
    changeFields ⟨1, 0, "added", "weird", none, none⟩ = Except.ok (none, none, none) :=
  (change_fields_null_or_raise ⟨1, 0, "added", "weird", none, none⟩).1
    (by decide) (by decide)

/-- Claim C6: for a download-category change record carrying both bonus
sub-records, the projected row's bonus_type is the old bonus's type (written
last, taking precedence over the new bonus's type). -/
theorem old_bonus_type_wins (prod : Product) (rec : ChangeRecord)
    (dr : DownloadRecord) (nb ob : BonusRecord)
    (h1 : rec.category = "download") (h2 : rec.download_record = some dr)
    (_h3 : dr.dl_new_bonus = some nb) (h4 : dr.dl_old_bonus = some ob) :
    ∃ row : ChangelogRow, indexChangeRow prod rec = Except.ok row ∧
      row.bonus_type = some ob.bonus_type := by
  have h : changeFields rec = Except.ok (some dr.dl_type, some ob.bonus_type, none) := by
    simp [changeFields, h1, h2, h4]
  exact ⟨{ product_id := prod.id, product_title := prod.title,
           timestamp := rec.timestamp, action := rec.action,
           category := rec.category, dl_type := some dr.dl_type,
           bonus_type := some ob.bonus_type, property_name := none,
           serialized_record := jsonDumps (changeRecordJson rec) },
         by simp [indexChangeRow, h, Except.map], rfl⟩

theorem old_bonus_type_wins_witness :
    ∃ row : ChangelogRow,
      indexChangeRow ⟨1, "A", "l", "game", [], none⟩
          ⟨1, 9, "changed", "download", some ⟨"installer", some ⟨"soundtrack"⟩, some ⟨"wallpaper"⟩⟩, none⟩ =
        Except.ok row ∧ row.bonus_type = some "wallpaper" :=
  old_bonus_type_wins ⟨1, "A", "l", "game", [], none⟩
    ⟨1, 9, "changed", "download", some ⟨"installer", some ⟨"soundtrack"⟩, some ⟨"wallpaper"⟩⟩, none⟩
    ⟨"installer", some ⟨"soundtrack"⟩, some ⟨"wallpaper"⟩⟩ ⟨"soundtrack"⟩ ⟨"wallpaper"⟩
    rfl rfl rfl rfl

/-- Claim C10: for a download-category change record, dl_type is always set
from the download payload, and bonus_type is the old bonus's type when the old
bonus sub-record is present, otherwise the new bonus's type when that one is
present, otherwise null. In particular, with exactly one bonus sub-record
present bonus_type is that one's type, and with neither present it is null
while dl_type is still set. -/
theorem single_bonus_type (prod : Product) (rec : ChangeRecord)
    (dr : DownloadRecord)
    (h1 : rec.category = "download") (h2 : rec.download_record = some dr) :
    ∃ row : ChangelogRow, indexChangeRow prod rec = Except.ok row
      ∧ row.dl_type = some dr.dl_type
      ∧ row.bonus_type =
          (match dr.dl_old_bonus with
           | some ob => some ob.bonus_type
           | none =>
             match dr.dl_new_bonus with
             | some nb => some nb.bonus_type
             | none => none) := by
  have h : changeFields rec = Except.ok (some dr.dl_type,
      (match dr.dl_old_bonus with
       | some ob => some ob.bonus_type
       | none =>
         match dr.dl_new_bonus with
         | some nb => some nb.bonus_type
         | none => none), none) := by
    cases ho : dr.dl_old_bonus <;> cases hn : dr.dl_new_bonus <;>
      simp [changeFields, h1, h2, ho, hn]
  exact ⟨{ product_id := prod.id, product_title := prod.title,
           timestamp := rec.timestamp, action := rec.action,
           category := rec.category, dl_type := some dr.dl_type,
           bonus_type :=
             (match dr.dl_old_bonus with
              | some ob => some ob.bonus_type
              | none =>
                match dr.dl_new_bonus with
                | some nb => some nb.bonus_type
                | none => none),
           property_name := none,
           serialized_record := jsonDumps (changeRecordJson rec) },
         by simp [indexChangeRow, h, Except.map], rfl, rfl⟩

theorem single_bonus_type_witness :
    ∃ row : ChangelogRow,
      indexChangeRow ⟨1, "A", "l", "game", [], none⟩
          ⟨1, 9, "changed", "download", some ⟨"installer", none, none⟩, none⟩ =
        Except.ok row ∧ row.dl_type = some "installer" ∧ row.bonus_type = none :=
  single_bonus_type ⟨1, "A", "l", "game", [], none⟩
    ⟨1, 9, "changed", "download", some ⟨"installer", none, none⟩, none⟩
    ⟨"installer", none, none⟩ rfl rfl
/-- Claim C3: an id whose product the loader reports absent contributes no
statement to the rebuild loop at all: the loop's statement list and aborted
flag with that id at any position equal the ones without it, so zero rows
reach any of the three tables for that id, nothing fails, and the loop
continues with the ids after it. -/
theorem absent_product_skipped (n : Nat) (pl : Nat → Option Product)
    (cl : Nat → Option (List ChangeRecord)) (i : Nat) (h : pl i = none)
    (xs ys : List Nat) :
    loopOps n pl cl (xs ++ i :: ys) = loopOps n pl cl (xs ++ ys) := by
  induction xs with
  | nil => simp [loopOps, idOps, h]
  | cons x xs ih => simp [loopOps, ih]

/-- A product loader for concrete checks: only id 2 is present. -/
def plOnly2 : Nat → Option Product :=
  fun i => if i = 2 then some ⟨2, "B", "logo", "game", ["windows"], none⟩ else none

/-- A changelog loader for concrete checks: every changelog absent. -/
def clNone : Nat → Option (List ChangeRecord) :=
  fun _ => none

theorem absent_product_skipped_witness :
    loopOps 3 plOnly2 clNone ([2] ++ 1 :: [2]) = loopOps 3 plOnly2 clNone ([2] ++ [2]) :=
  absent_product_skipped 3 plOnly2 clNone 1 rfl [2] [2]

/-- Claim C7: an id whose product loads but whose changelog the loader
reports absent contributes exactly its product-row insert to the rebuild
loop — zero changelog and zero summary statements, no failure — and the
loop continues with the next id. -/
theorem absent_changelog_keeps_product_row (n : Nat) (pl : Nat → Option Product)
    (cl : Nat → Option (List ChangeRecord)) (i : Nat) (prod : Product)
    (h1 : pl i = some prod) (h2 : cl i = none) (ys : List Nat) :
    loopOps n pl cl (i :: ys) =
      (Op.insertProduct (index_product prod n) :: (loopOps n pl cl ys).1,
        (loopOps n pl cl ys).2) := by
  simp [loopOps, idOps, h1, h2]

theorem absent_changelog_keeps_product_row_witness :
    loopOps 3 plOnly2 clNone (2 :: [1]) =
      (Op.insertProduct (index_product ⟨2, "B", "logo", "game", ["windows"], none⟩ 3)
          :: (loopOps 3 plOnly2 clNone [1]).1,
        (loopOps 3 plOnly2 clNone [1]).2) :=
  absent_changelog_keeps_product_row 3 plOnly2 clNone 2
    ⟨2, "B", "logo", "game", ["windows"], none⟩ rfl rfl [1]
/-- Changelog-row inserts are data statements: never BEGIN or END. -/
theorem map_insertChangelog_no_ctl (rows : List ChangelogRow) :
    ∀ op ∈ rows.map Op.insertChangelog, op ≠ Op.beginTx ∧ op ≠ Op.commitTx := by
  intro op hop
  rcases List.mem_map.mp hop with ⟨r, _, rfl⟩
  exact ⟨by simp, by simp⟩

/-- Summary-row inserts are data statements: never BEGIN or END. -/
theorem map_insertSummary_no_ctl (rows : List SummaryRow) :
    ∀ op ∈ rows.map Op.insertSummary, op ≠ Op.beginTx ∧ op ≠ Op.commitTx := by
  intro op hop
  rcases List.mem_map.mp hop with ⟨r, _, rfl⟩
  exact ⟨by simp, by simp⟩

/-- index_changelog issues only data statements. -/
theorem index_changelog_ops_no_ctl (prod : Product) (recs : List ChangeRecord) :
    ∀ op ∈ (index_changelog_ops prod recs).1,
      op ≠ Op.beginTx ∧ op ≠ Op.commitTx := by
  intro op hop
  simp only [index_changelog_ops] at hop
  rcases List.mem_append.mp hop with h | h
  · exact map_insertChangelog_no_ctl _ op h
  · split at h
    · exact absurd h (List.not_mem_nil op)
    · exact map_insertSummary_no_ctl _ op h

/-- One loop iteration of index_main issues only data statements. -/
theorem idOps_no_ctl (n : Nat) (pl : Nat → Option Product)
    (cl : Nat → Option (List ChangeRecord)) (i : Nat) :
    ∀ op ∈ (idOps n pl cl i).1, op ≠ Op.beginTx ∧ op ≠ Op.commitTx := by
  intro op hop
  cases hpl : pl i with
  | none => simp only [idOps, hpl] at hop; exact absurd hop (List.not_mem_nil op)
  | some prod =>
    cases hcl : cl i with
    | none =>
      simp only [idOps, hpl, hcl] at hop
      rcases List.mem_singleton.mp hop with rfl
      exact ⟨by simp, by simp⟩
    | some recs =>
      simp only [idOps, hpl, hcl] at hop
      rcases List.mem_cons.mp hop with rfl | h
      · exact ⟨by simp, by simp⟩
      · exact index_changelog_ops_no_ctl prod recs op h

/-- The whole id loop of index_main issues only data statements. -/
theorem loopOps_no_ctl (n : Nat) (pl : Nat → Option Product)
    (cl : Nat → Option (List ChangeRecord)) :
    ∀ ids : List Nat, ∀ op ∈ (loopOps n pl cl ids).1,
      op ≠ Op.beginTx ∧ op ≠ Op.commitTx := by
  intro ids
  induction ids with
  | nil => intro op hop; exact absurd hop (List.not_mem_nil op)
  | cons i rest ih =>
    intro op hop
    simp only [loopOps] at hop
    split at hop
    · exact idOps_no_ctl n pl cl i op hop
    · rcases List.mem_append.mp hop with h | h
      · exact idOps_no_ctl n pl cl i op h
      · exact ih op h

/-- A data statement inside an open transaction touches only the working
snapshot. -/
theorem applyOp_write (p w : Store) (op : Op) (h1 : op ≠ Op.beginTx)
    (h2 : op ≠ Op.commitTx) :
    applyOp ⟨p, some w⟩ op = ⟨p, some (w.applyWriteOp op)⟩ := by
  cases op with
  | beginTx => exact absurd rfl h1
  | commitTx => exact absurd rfl h2
  | deleteProducts => rfl
  | deleteChangelog => rfl
  | deleteSummary => rfl
  | insertProduct r => rfl
  | insertChangelog r => rfl
  | insertSummary r => rfl

/-- While a transaction stays open (no END in the statement list), the
persisted contents never change and the transaction stays open. -/
theorem runOps_no_commit (l : List Op) :
    ∀ p w : Store, (∀ op ∈ l, op ≠ Op.commitTx) →
      ∃ w' : Store, runOps ⟨p, some w⟩ l = ⟨p, some w'⟩ := by
  induction l with
  | nil => intro p w _; exact ⟨w, rfl⟩
  | cons op rest ih =>
    intro p w h
    have hop := h op (List.mem_cons_self op rest)
    have hrest : ∀ o ∈ rest, o ≠ Op.commitTx :=
      fun o ho => h o (List.mem_cons_of_mem op ho)
    by_cases hb : op = Op.beginTx
    · subst hb
      exact ih p w hrest
    · have step := applyOp_write p w op hb hop
      have heq : runOps ⟨p, some w⟩ (op :: rest) =
          runOps ⟨p, some (w.applyWriteOp op)⟩ rest := by
        simp [runOps, step]
      rw [heq]
      exact ih p _ hrest

/-- Running only data statements inside an open transaction folds them
into the working snapshot and leaves the persisted contents alone. -/
theorem runOps_writes (l : List Op) :
    ∀ p w : Store, (∀ op ∈ l, op ≠ Op.beginTx ∧ op ≠ Op.commitTx) →
      runOps ⟨p, some w⟩ l = ⟨p, some (l.foldl Store.applyWriteOp w)⟩ := by
  induction l with
  | nil => intro p w _; rfl
  | cons op rest ih =>
    intro p w h
    have hop := h op (List.mem_cons_self op rest)
    have hrest : ∀ o ∈ rest, o ≠ Op.beginTx ∧ o ≠ Op.commitTx :=
      fun o ho => h o (List.mem_cons_of_mem op ho)
    have step := applyOp_write p w op hop.1 hop.2
    have heq : runOps ⟨p, some w⟩ (op :: rest) =
        runOps ⟨p, some (w.applyWriteOp op)⟩ rest := by
      simp [runOps, step]
    rw [heq, ih p _ hrest]
    simp

/-- Running a concatenation runs the two parts in sequence. -/
theorem runOps_append (c : Conn) (l₁ l₂ : List Op) :
    runOps c (l₁ ++ l₂) = runOps (runOps c l₁) l₂ := by
  simp [runOps]

/-- BEGIN plus the three DELETEs turn a fresh connection into one with an
open transaction whose working snapshot has all three tables empty. -/
theorem runOps_head (s : Store) (l : List Op) :
    runOps ⟨s, none⟩ (Op.beginTx :: Op.deleteProducts :: Op.deleteChangelog ::
      Op.deleteSummary :: l) = runOps ⟨s, some ⟨[], [], []⟩⟩ l := rfl

/-- index_main in closed form: when some id aborts the loop the persisted
store is unchanged, and otherwise the three tables are exactly the folded
inserts of the loop over empty tables — independent of the prior store
contents. -/
theorem index_main_eq (s : Store) (ids : List Nat) (pl : Nat → Option Product)
    (cl : Nat → Option (List ChangeRecord)) :
    index_main s ids pl cl =
      if (loopOps ids.length pl cl ids).2 then s
      else (loopOps ids.length pl cl ids).1.foldl Store.applyWriteOp ⟨[], [], []⟩ := by
  have hctl := loopOps_no_ctl ids.length pl cl ids
  unfold index_main index_main_ops
  rw [runOps_head]
  cases hab : (loopOps ids.length pl cl ids).2 with
  | false =>
    simp only [hab, if_neg Bool.false_ne_true]
    rw [runOps_append, runOps_writes _ s ⟨[], [], []⟩ hctl]
    rfl
  | true =>
    simp only [hab, if_true, List.append_nil]
    rw [runOps_writes _ s ⟨[], [], []⟩ hctl]
/-- Adding a category keeps the category set duplicate-free. -/
theorem setAdd_nodup (cs : List String) (c : String) (h : cs.Nodup) :
    (setAdd cs c).Nodup := by
  unfold setAdd
  split
  · exact h
  case isFalse hm =>
    rw [List.nodup_append_comm]
    simpa [List.nodup_cons] using ⟨hm, h⟩

/-- Membership in a category set after adding a category. -/
theorem mem_setAdd (cs : List String) (c a : String) :
    a ∈ setAdd cs c ↔ a ∈ cs ∨ a = c := by
  unfold setAdd
  split
  case isTrue h =>
    constructor
    · exact fun ha => Or.inl ha
    · rintro (ha | rfl)
      · exact ha
      · exact h
  case isFalse h => simp

/-- The timestamp keys after one defaultdict update: unchanged when the
timestamp is already a key, otherwise the new timestamp is appended. -/
theorem keys_addCat (t : Int) (c : String) :
    ∀ acc : List (Int × List String),
      (addCat acc t c).map Prod.fst =
        if t ∈ acc.map Prod.fst then acc.map Prod.fst
        else acc.map Prod.fst ++ [t] := by
  intro acc
  induction acc with
  | nil => simp [addCat]
  | cons p rest ih =>
    obtain ⟨tp, cs⟩ := p
    by_cases h : tp = t
    · subst h
      simp [addCat]
    · by_cases h2 : t ∈ rest.map Prod.fst <;>
        simp [addCat, h, ih, h2, Ne.symm h]

/-- Looking a timestamp up after one defaultdict update. -/
theorem lookupCats_addCat (t : Int) (c : String) :
    ∀ (acc : List (Int × List String)) (t' : Int),
      lookupCats (addCat acc t c) t' =
        if t' = t then some (setAdd ((lookupCats acc t).getD []) c)
        else lookupCats acc t' := by
  intro acc
  induction acc with
  | nil =>
    intro t'
    by_cases h : t' = t
    · subst h
      simp [addCat, lookupCats, setAdd]
    · simp [addCat, lookupCats, h, Ne.symm h]
  | cons p rest ih =>
    intro t'
    obtain ⟨tp, cs⟩ := p
    by_cases h1 : tp = t
    · subst h1
      by_cases h2 : t' = tp
      · subst h2
        simp [addCat, lookupCats]
      · simp [addCat, lookupCats, h2, Ne.symm h2]
    · by_cases h2 : t' = tp
      · subst h2
        simp [addCat, lookupCats, h1, Ne.symm h1]
      · simp [addCat, lookupCats, h1, h2, Ne.symm h2, ih t']

/-- A timestamp has no entry in the accumulator exactly when it is not a
key. -/
theorem lookupCats_eq_none (t : Int) :
    ∀ acc : List (Int × List String),
      lookupCats acc t = none ↔ t ∉ acc.map Prod.fst := by
  intro acc
  induction acc with
  | nil => simp [lookupCats]
  | cons p rest ih =>
    obtain ⟨tp, cs⟩ := p
    by_cases h : tp = t
    · subst h
      simp [lookupCats]
    · simp [lookupCats, h, ih, Ne.symm h]

/-- With duplicate-free keys, each accumulator entry is found by lookup. -/
theorem lookupCats_of_mem :
    ∀ acc : List (Int × List String), (acc.map Prod.fst).Nodup →
      ∀ p ∈ acc, lookupCats acc p.1 = some p.2 := by
  intro acc
  induction acc with
  | nil => intro _ p hp; cases hp
  | cons q rest ih =>
    intro h p hp
    obtain ⟨tq, cs⟩ := q
    have hnd := List.nodup_cons.mp h
    rcases List.mem_cons.mp hp with rfl | hp'
    · simp [lookupCats]
    · have hne : tq ≠ p.1 := by
        intro hh
        exact hnd.1 (hh ▸ List.mem_map.mpr ⟨p, hp', rfl⟩)
      simp [lookupCats, hne, ih hnd.2 p hp']

/-- The invariant tying the summaries accumulator to the categories seen so
far: keys are duplicate-free, a timestamp has an entry exactly when a
category was seen at it, and each entry is the duplicate-free set of the
categories seen at its timestamp. -/
def sumInv (acc : List (Int × List String)) (f : Int → List String) : Prop :=
  (acc.map Prod.fst).Nodup
  ∧ (∀ t, lookupCats acc t = none ↔ f t = [])
  ∧ (∀ t cs, lookupCats acc t = some cs →
      cs.Nodup ∧ ∀ c, c ∈ cs ↔ c ∈ f t)

/-- The invariant only depends on the seen-categories function pointwise. -/
theorem sumInv_congr (acc : List (Int × List String)) (f g : Int → List String)
    (h : ∀ t, f t = g t) (hi : sumInv acc f) : sumInv acc g := by
  obtain ⟨h1, h2, h3⟩ := hi
  refine ⟨h1, fun t => ?_, fun t cs hcs => ?_⟩
  · rw [← h t]
    exact h2 t
  · obtain ⟨hnd, hmem⟩ := h3 t cs hcs
    exact ⟨hnd, fun c => by rw [← h t]; exact hmem c⟩

/-- The empty accumulator satisfies the invariant with no seen categories. -/
theorem sumInv_nil : sumInv [] (fun _ => []) := by
  refine ⟨by simp, fun t => by simp [lookupCats], fun t cs hcs => ?_⟩
  simp [lookupCats] at hcs

/-- One defaultdict update preserves the invariant, appending the new
category to the categories seen at its timestamp. -/
theorem sumInv_addCat (acc : List (Int × List String)) (f : Int → List String)
    (h : sumInv acc f) (t₀ : Int) (c₀ : String) :
    sumInv (addCat acc t₀ c₀)
      (fun t => f t ++ if t₀ = t then [c₀] else []) := by
  obtain ⟨h1, h2, h3⟩ := h
  refine ⟨?_, fun t => ?_, fun t cs hcs => ?_⟩
  · rw [keys_addCat]
    split
    · exact h1
    case isFalse hmem =>
      rw [List.nodup_append_comm]
      exact List.nodup_cons.mpr ⟨hmem, h1⟩
  · show lookupCats (addCat acc t₀ c₀) t = none ↔
      f t ++ (if t₀ = t then [c₀] else []) = []
    rw [lookupCats_addCat]
    by_cases ht : t = t₀
    · rw [if_pos ht, if_pos ht.symm]
      simp
    · rw [if_neg ht, if_neg (Ne.symm ht), List.append_nil]
      exact h2 t
  · rw [lookupCats_addCat] at hcs
    show cs.Nodup ∧ ∀ c, c ∈ cs ↔ c ∈ f t ++ (if t₀ = t then [c₀] else [])
    by_cases ht : t = t₀
    · rw [if_pos ht] at hcs
      injection hcs with hcs'
      subst hcs'
      rw [if_pos ht.symm]
      cases hlk : lookupCats acc t₀ with
      | none =>
        have hf : f t₀ = [] := (h2 t₀).mp hlk
        constructor
        · simp [setAdd]
        · intro c
          rw [ht, hf]
          simp [setAdd]
      | some cs₀ =>
        obtain ⟨hnd₀, hmem₀⟩ := h3 t₀ cs₀ hlk
        constructor
        · exact setAdd_nodup cs₀ c₀ hnd₀
        · intro c
          rw [ht]
          simp [mem_setAdd, hmem₀ c]
    · rw [if_neg ht] at hcs
      obtain ⟨hnd', hmem'⟩ := h3 t cs hcs
      rw [if_neg (Ne.symm ht), List.append_nil]
      exact ⟨hnd', hmem'⟩

/-- The categories at a timestamp, record by record. -/
theorem catsAt_cons (r : ChangeRecord) (rs : List ChangeRecord) (t : Int) :
    catsAt (r :: rs) t =
      (if r.timestamp = t then [r.category] else []) ++ catsAt rs t := by
  by_cases h : r.timestamp = t <;> simp [catsAt, h]

/-- Folding the defaultdict updates of a record list over any accumulator
satisfying the invariant yields the invariant extended by the categories of
that record list. -/
theorem sumInv_foldl :
    ∀ recs : List ChangeRecord, ∀ (acc : List (Int × List String))
      (f : Int → List String), sumInv acc f →
      sumInv (recs.foldl (fun a r => addCat a r.timestamp r.category) acc)
        (fun t => f t ++ catsAt recs t) := by
  intro recs
  induction recs with
  | nil =>
    intro acc f h
    exact sumInv_congr acc f _ (fun t => by simp [catsAt]) h
  | cons r rs ih =>
    intro acc f h
    have hstep := sumInv_addCat acc f h r.timestamp r.category
    have hres := ih _ _ hstep
    refine sumInv_congr _ _ _ (fun t => ?_) hres
    rw [catsAt_cons, ← List.append_assoc]

/-- The summaries mapping of a record list satisfies the invariant with
the categories of that record list. -/
theorem summariesOf_inv (recs : List ChangeRecord) :
    sumInv (summariesOf recs) (fun t => catsAt recs t) := by
  have h := sumInv_foldl recs [] (fun _ => []) sumInv_nil
  exact sumInv_congr _ _ _ (fun t => by simp) h

/-- A timestamp has a category at it exactly when some record carries it. -/
theorem catsAt_eq_nil (recs : List ChangeRecord) (t : Int) :
    catsAt recs t = [] ↔ t ∉ recs.map (fun r => r.timestamp) := by
  induction recs with
  | nil => simp [catsAt]
  | cons r rs ih =>
    rw [catsAt_cons]
    by_cases h : r.timestamp = t
    · simp [h]
    · simp [h, ih, Ne.symm h]

/-- Claim C4: for every product whose changelog is processed, exactly one
summary row is emitted per distinct timestamp appearing in its change
records — the emitted timestamps are duplicate-free and are exactly the
record timestamps — and each row's categories field is the comma-joined,
lexicographically sorted list of the distinct categories of the records at
that exact timestamp. -/
theorem summary_rows_per_timestamp (prod : Product) (recs : List ChangeRecord) :
    ((summaryRows prod recs).map (fun row => row.timestamp)).Nodup
    ∧ (∀ t : Int, t ∈ (summaryRows prod recs).map (fun row => row.timestamp) ↔
        t ∈ recs.map (fun r => r.timestamp))
    ∧ (∀ row ∈ summaryRows prod recs,
        row.categories =
          String.intercalate ","
            (List.insertionSort (· ≤ ·) (catsAt recs row.timestamp).dedup)) := by
  obtain ⟨hnd, hnone, hsome⟩ := summariesOf_inv recs
  have hkeys : (summaryRows prod recs).map (fun row => row.timestamp) =
      (summariesOf recs).map Prod.fst := by
    rw [summaryRows, List.map_map]
    rfl
  refine ⟨?_, ?_, ?_⟩
  · rw [hkeys]
    exact hnd
  · intro t
    rw [hkeys]
    constructor
    · intro ht
      by_contra hnt
      have hc : catsAt recs t = [] := (catsAt_eq_nil recs t).mpr hnt
      have hn : lookupCats (summariesOf recs) t = none := (hnone t).mpr hc
      exact ((lookupCats_eq_none t _).mp hn) ht
    · intro ht
      by_contra hkt
      have hn : lookupCats (summariesOf recs) t = none :=
        (lookupCats_eq_none t _).mpr hkt
      exact ((catsAt_eq_nil recs t).mp ((hnone t).mp hn)) ht
  · intro row hrow
    obtain ⟨p, hp, rfl⟩ := List.mem_map.mp hrow
    obtain ⟨hcnd, hmem⟩ := hsome p.1 p.2 (lookupCats_of_mem _ hnd p hp)
    show String.intercalate "," (List.insertionSort (· ≤ ·) p.2) =
      String.intercalate "," (List.insertionSort (· ≤ ·) (catsAt recs p.1).dedup)
    congr 1
    have hperm : p.2.Perm (catsAt recs p.1).dedup := by
      rw [List.perm_ext_iff_of_nodup hcnd (List.nodup_dedup _)]
      intro a
      rw [List.mem_dedup]
      exact hmem a
    exact List.eq_of_perm_of_sorted
      ((List.perm_insertionSort _ _).trans
        (hperm.trans (List.perm_insertionSort _ _).symm))
      (List.sorted_insertionSort _ _)
      (List.sorted_insertionSort _ _)

theorem summary_rows_per_timestamp_witness :
    (⟨1, "A", 100, "download"⟩ : SummaryRow).categories =
      String.intercalate ","
        (List.insertionSort (· ≤ ·)
          (catsAt
            [⟨1, 100, "changed", "download", some ⟨"installer", none, none⟩, none⟩,
             ⟨1, 200, "changed", "property", none, some ⟨"title"⟩⟩]
            (⟨1, "A", 100, "download"⟩ : SummaryRow).timestamp).dedup) :=
  (summary_rows_per_timestamp ⟨1, "A", "l", "game", [], none⟩
      [⟨1, 100, "changed", "download", some ⟨"installer", none, none⟩, none⟩,
       ⟨1, 200, "changed", "property", none, some ⟨"title"⟩⟩]).2.2
    ⟨1, "A", 100, "download"⟩ (by decide)
instance : IsTotal (String × Json) (fun a b => a.1 ≤ b.1) :=
  ⟨fun a b => le_total a.1 b.1⟩

instance : IsTrans (String × Json) (fun a b => a.1 ≤ b.1) :=
  ⟨fun _ _ _ h1 h2 => le_trans h1 h2⟩

/-- Claim C9: for every change record inserted into the changelog table, the
serialized_record column holds the record serialized as canonical JSON text:
the value is the jsonDumps image of the record structure including nested
category payloads, jsonDumps orders every object's keys lexicographically
(the emitted pair list of an object is sorted by key), and the character
escaping leaves every non-ASCII character unescaped. -/
theorem serialized_record_canonical (prod : Product) (rec : ChangeRecord)
    (row : ChangelogRow) (h : indexChangeRow prod rec = Except.ok row) :
    row.serialized_record = jsonDumps (changeRecordJson rec)
    ∧ (∀ kvs : List (String × Json),
        ∃ kvs' : List (String × Json),
          sortJson (Json.obj kvs) = Json.obj kvs'
          ∧ (kvs'.map Prod.fst).Sorted (· ≤ ·))
    ∧ (∀ c : Char, 128 ≤ c.toNat → escapeChar c = String.singleton c) := by
  refine ⟨?_, ?_, ?_⟩
  · simp only [indexChangeRow] at h
    cases hcf : changeFields rec with
    | error e => rw [hcf] at h; simp [Except.map] at h
    | ok f =>
      rw [hcf] at h
      simp only [Except.map] at h
      injection h with h'
      rw [← h']
  · intro kvs
    refine ⟨_, rfl, ?_⟩
    have hs := List.sorted_insertionSort
      (fun a b : String × Json => a.1 ≤ b.1) (sortPairs kvs)
    exact List.Pairwise.map Prod.fst (fun a b hab => hab) hs
  · intro c hc
    have h1 : c ≠ '"' := fun hh => absurd (hh ▸ hc) (by decide)
    have h2 : c ≠ '\\' := fun hh => absurd (hh ▸ hc) (by decide)
    have h3 : c ≠ '\n' := fun hh => absurd (hh ▸ hc) (by decide)
    have h4 : c ≠ '\t' := fun hh => absurd (hh ▸ hc) (by decide)
    have h5 : c ≠ '\r' := fun hh => absurd (hh ▸ hc) (by decide)
    have h6 : c ≠ Char.ofNat 8 := fun hh => absurd (hh ▸ hc) (by decide)
    have h7 : c ≠ Char.ofNat 12 := fun hh => absurd (hh ▸ hc) (by decide)
    have h8 : ¬c.toNat < 32 := by omega
    simp only [escapeChar, if_neg h1, if_neg h2, if_neg h3, if_neg h4,
      if_neg h5, if_neg h6, if_neg h7, if_neg h8]

/-- A property change record with a non-ASCII character, for concrete
serialization checks. -/
def recSer : ChangeRecord :=
  ⟨1, 100, "changed", "property", none, some ⟨"titlé"⟩⟩

/-- The changelog row the serializer produces for recSer. -/
def rowSer : ChangelogRow :=
  { product_id := 1
    product_title := "A"
    timestamp := 100
    action := "changed"
    category := "property"
    dl_type := none
    bonus_type := none
    property_name := some "titlé"
    serialized_record := jsonDumps (changeRecordJson recSer) }

theorem serialized_record_canonical_witness :
    rowSer.serialized_record = jsonDumps (changeRecordJson recSer) :=
  (serialized_record_canonical ⟨1, "A", "l", "game", [], none⟩ recSer rowSer rfl).1
/-- A prefix that stays inside the commit-free front of a statement list
contains no END statement. -/
theorem take_no_commit (front tail : List Op)
    (hf : ∀ op ∈ front, op ≠ Op.commitTx) (k : Nat) (hk : k ≤ front.length) :
    ∀ op ∈ (front ++ tail).take k, op ≠ Op.commitTx := by
  intro op hop
  rw [List.take_append_eq_append_take, Nat.sub_eq_zero_of_le hk] at hop
  simp only [List.take_zero, List.append_nil] at hop
  exact hf op (List.take_subset k front hop)

/-- Claim C1: the whole rebuild executes inside one transaction. The
statement trace of index_main begins the transaction, issues the deletes
and inserts, and commits only as its very last statement; so when a fatal
store error cuts execution after any proper prefix of the trace — at any
step after the deletes but before the commit — the persisted index store
still holds its pre-rebuild contents, and no persisted state with cleared
or partially repopulated tables exists. -/
theorem one_transaction_rollback (s : Store) (ids : List Nat)
    (pl : Nat → Option Product) (cl : Nat → Option (List ChangeRecord))
    (k : Nat) (hk : k < (index_main_ops ids pl cl).length) :
    (runOps ⟨s, none⟩ ((index_main_ops ids pl cl).take k)).persisted = s := by
  rcases k with _ | k'
  · rfl
  · have hf : ∀ op ∈ (Op.deleteProducts :: Op.deleteChangelog :: Op.deleteSummary ::
        (loopOps ids.length pl cl ids).1), op ≠ Op.commitTx := by
      intro op hop
      rcases List.mem_cons.mp hop with rfl | hop
      · simp
      rcases List.mem_cons.mp hop with rfl | hop
      · simp
      rcases List.mem_cons.mp hop with rfl | hop
      · simp
      exact (loopOps_no_ctl ids.length pl cl ids op hop).2
    have hlen : k' + 1 < ((Op.deleteProducts :: Op.deleteChangelog :: Op.deleteSummary ::
        (loopOps ids.length pl cl ids).1) ++
        (if (loopOps ids.length pl cl ids).2 then [] else [Op.commitTx])).length + 1 := hk
    have htail : (if (loopOps ids.length pl cl ids).2 then ([] : List Op)
        else [Op.commitTx]).length ≤ 1 := by
      split <;> simp
    have hle : k' ≤ (Op.deleteProducts :: Op.deleteChangelog :: Op.deleteSummary ::
        (loopOps ids.length pl cl ids).1).length := by
      rw [List.length_append] at hlen
      omega
    obtain ⟨w', hw⟩ := runOps_no_commit _ s s (take_no_commit _ _ hf k' hle)
    have hstep : runOps ⟨s, none⟩ ((index_main_ops ids pl cl).take (k' + 1)) =
        runOps ⟨s, some s⟩ (((Op.deleteProducts :: Op.deleteChangelog ::
          Op.deleteSummary :: (loopOps ids.length pl cl ids).1) ++
          (if (loopOps ids.length pl cl ids).2 then [] else [Op.commitTx])).take k') := rfl
    rw [hstep, hw]

/-- A pre-rebuild store with one leftover product row, for concrete
rollback checks. -/
def storeBefore : Store :=
  ⟨[⟨9, "old", "logo", "game", "w", 0, "old"⟩], [], []⟩

theorem one_transaction_rollback_witness :
    2 < (index_main_ops [] plOnly2 clNone).length ∧
      (runOps ⟨storeBefore, none⟩
        ((index_main_ops [] plOnly2 clNone).take 2)).persisted = storeBefore :=
  ⟨by decide, one_transaction_rollback storeBefore [] plOnly2 clNone 2 (by decide)⟩

/-- Claim C8: rebuilding is idempotent. index_main first deletes every row
of the three tables and then regenerates them from the id list and the two
loaders alone, so a second run over unchanged primary-store contents
persists exactly the same three row sets as the first. -/
theorem rebuild_idempotent (s : Store) (ids : List Nat)
    (pl : Nat → Option Product) (cl : Nat → Option (List ChangeRecord)) :
    index_main (index_main s ids pl cl) ids pl cl = index_main s ids pl cl := by
  by_cases hab : (loopOps ids.length pl cl ids).2 = true
  · simp [index_main_eq, hab]
  · simp [index_main_eq, hab]
